import Mathlib

/-!
Verification of the Curliducation culinary-education platform.

This file gives a shallow embedding of the parts of the code that the
specification's claims are about, and proves (or refutes) each claim.

Embedding conventions:
* Django model rows become Lean structures holding the claim-relevant fields;
  the relational store is a `DB` structure of lists of rows.
* `DecimalField(decimal_places=2)` amounts are embedded as exact rationals.
* Text processing (`django.utils.text.slugify`, `icontains`) is embedded at
  the `List Char` level for ASCII input, matching the library semantics.
* SQL `ORDER BY` is embedded as a deterministic insertion sort on the row
  list (the database's tie order is unspecified; any stable order models it).
* A view returns `Resp × Bool`; the boolean records whether any catalog
  (Course/Class/Recipe/Book) query was executed on that control path, which
  is what the access-control claims are about.  Template context data that
  no claim mentions is not modelled.
-/

namespace Curliducation

/-! ### `django.utils.text.slugify` (ASCII behavior)

```
value = re.sub(r"[^\w\s-]", "", value.lower())
return re.sub(r"[-\s]+", "-", value).strip("-_")
``` -/

/-- ASCII `\w`: letters, digits and underscore. -/
def isWordChar (c : Char) : Bool := c.isAlphanum || c == '_'

/-- ASCII `\s`: space, tab, newline, carriage return, vertical tab, form feed. -/
def isSpaceChar (c : Char) : Bool :=
  c == ' ' || c == '\t' || c == '\n' || c == '\r' || c == Char.ofNat 11 || c == Char.ofNat 12

/-- A character matched by the class `[-\s]`. -/
def isDashOrSpace (c : Char) : Bool := c == '-' || isSpaceChar c

/-- `re.sub(r"[-\s]+", "-", value)`: each maximal run of `[-\s]` characters
becomes a single hyphen. -/
def collapseDashRuns : List Char → List Char
  | [] => []
  | [c] => [if isDashOrSpace c then '-' else c]
  | c :: d :: rest =>
    if isDashOrSpace c && isDashOrSpace d then collapseDashRuns (d :: rest)
    else (if isDashOrSpace c then '-' else c) :: collapseDashRuns (d :: rest)

/-- A character stripped from both ends by `.strip("-_")`. -/
def isStripChar (c : Char) : Bool := c == '-' || c == '_'

/-- Python `value.strip("-_")`. -/
def stripEnds (l : List Char) : List Char :=
  ((l.dropWhile isStripChar).reverse.dropWhile isStripChar).reverse

/-- `django.utils.text.slugify` on ASCII text: lowercase, drop characters
outside `[\w\s-]`, collapse `[-\s]+` runs to `-`, strip `-`/`_` from both
ends. -/
def slugify (s : String) : String :=
  String.mk (stripEnds (collapseDashRuns
    ((s.data.map Char.toLower).filter (fun c => isWordChar c || isSpaceChar c || c == '-'))))

/-! ### Decimal rendering of the loop counter (`f"{base_slug}-{counter}"`) -/

/-- The decimal digit character for `d < 10`. -/
def decDigit : Nat → Char
  | 0 => '0' | 1 => '1' | 2 => '2' | 3 => '3' | 4 => '4'
  | 5 => '5' | 6 => '6' | 7 => '7' | 8 => '8' | _ => '9'

/-- Digit list of `n` (big-endian), with structural fuel; `fuel ≥ n` suffices. -/
def decStrAux : Nat → Nat → List Char
  | 0, _ => []
  | fuel + 1, n => if n = 0 then [] else decStrAux fuel (n / 10) ++ [decDigit (n % 10)]

/-- Decimal string of a natural number, as produced by Python `f"{n}"`. -/
def decStr (n : Nat) : String :=
  if n = 0 then "0" else String.mk (decStrAux n n)

/-- Value of a decimal digit string; proof-side inverse of `decStr`. -/
def decVal (l : List Char) : Nat :=
  l.foldl (fun acc c => acc * 10 + (c.toNat - 48)) 0

/-! ### The slug-uniqueness loop shared by `Course.save`, `Recipe.save`, `Book.save`

```
slug = base_slug
counter = 1
while <Model>.objects.filter(slug=slug).exists():
    slug = f"{base_slug}-{counter}"
    counter += 1
self.slug = slug
```

`ex` is the list of slugs currently stored for the entity type.  The `while`
loop is embedded with fuel `ex.length + 1`, which is enough for the loop to
reach a free candidate (the candidates are pairwise distinct). -/

/-- The candidate slug with numeric suffix `i`: `f"{base}-{i}"`. -/
def scand (base : String) (i : Nat) : String := base ++ "-" ++ decStr i

/-- One state of the loop: `slug` is the candidate about to be tested,
`counter` the suffix used if it is taken. -/
def slugSearch (ex : List String) (base : String) : Nat → String → Nat → String
  | 0, slug, _ => slug
  | fuel + 1, slug, counter =>
    if slug ∈ ex then slugSearch ex base fuel (scand base counter) (counter + 1)
    else slug

/-- The slug assigned by the loop, starting from the bare base and counter 1. -/
def uniqueSlug (ex : List String) (base : String) : String :=
  slugSearch ex base (ex.length + 1) base 1

/-! ### Data model (accounts/models.py, courses/models.py) -/

/-- `accounts.models.User` (claim-relevant fields). -/
structure User where
  id : Nat
  username : String
  role : String
deriving DecidableEq, Repr

/-- `User.is_admin`: `self.role == 'ADMIN' or self.role == 'CHEF'`. -/
def User.is_admin (u : User) : Bool := u.role == "ADMIN" || u.role == "CHEF"

/-- `User.is_chef`: `self.role == 'CHEF'`. -/
def User.is_chef (u : User) : Bool := u.role == "CHEF"

/-- `User.is_student`: `self.role == 'STUDENT'`. -/
def User.is_student (u : User) : Bool := u.role == "STUDENT"

/-- `courses.models.Course` (claim-relevant fields; `chef` is the owner's
user id, `created_at` a timestamp). -/
structure Course where
  id : Nat
  chef : Nat
  title : String
  slug : String
  description : String
  level : String
  is_published : Bool
  created_at : Nat
deriving DecidableEq, Repr

/-- `courses.models.Class` (claim-relevant fields; `course` is the id of the
owning course). -/
structure Class where
  id : Nat
  course : Nat
  title : String
  order : Nat
  duration_minutes : Nat
  created_at : Nat
deriving DecidableEq, Repr

/-- `courses.models.Recipe` (fields relevant to slug assignment). -/
structure Recipe where
  id : Nat
  title : String
  slug : String
deriving DecidableEq, Repr

/-- `courses.models.Book` (fields relevant to slug assignment). -/
structure Book where
  id : Nat
  title : String
  slug : String
deriving DecidableEq, Repr

/-- `courses.models.Enrollment` (claim-relevant fields; `amount_paid` is a
`DecimalField`, embedded as an exact rational). -/
structure Enrollment where
  id : Nat
  student : Nat
  course : Nat
  is_paid : Bool
  amount_paid : ℚ
  progress_percentage : Nat
  completed : Bool
deriving DecidableEq, Repr

/-- The relational store. -/
structure DB where
  users : List User
  courses : List Course
  classes : List Class
  recipes : List Recipe
  books : List Book
  enrollments : List Enrollment
deriving Repr

/-! ### Model methods (courses/models.py) -/

/-- `Course.save` (models.py:77-88): auto-generate the slug from the title
when none is set (`if not self.slug:` — the empty string is falsy); `ex` is
the list of slugs currently in the course table. -/
def Course.save (ex : List String) (c : Course) : Course :=
  if c.slug = "" then { c with slug := uniqueSlug ex (slugify c.title) } else c

/-- `Recipe.save` (models.py:266-276): same slug logic against the recipe table. -/
def Recipe.save (ex : List String) (r : Recipe) : Recipe :=
  if r.slug = "" then { r with slug := uniqueSlug ex (slugify r.title) } else r

/-- `Book.save` (models.py:383-393): same slug logic against the book table. -/
def Book.save (ex : List String) (b : Book) : Book :=
  if b.slug = "" then { b with slug := uniqueSlug ex (slugify b.title) } else b

/-- SQL `SUM` aggregate: `NULL` (none) on an empty row set. -/
def sumAgg (l : List ℚ) : Option ℚ :=
  if l = [] then none else some l.sum

/-- `Course.get_total_revenue` (models.py:97-101):
`enrollments.filter(is_paid=True).aggregate(total=Sum('amount_paid'))['total'] or 0`.
Python's `or 0` maps `None` to `0` (a zero-valued Decimal is also falsy, but
`or 0` then still yields the same number). -/
def Course.get_total_revenue (db : DB) (courseId : Nat) : ℚ :=
  (sumAgg ((db.enrollments.filter
    (fun e => e.course == courseId && e.is_paid)).map (fun e => e.amount_paid))).getD 0

/-- Insert into a `le`-sorted list (model of the database delivering rows in
`ORDER BY` order). -/
def insertLe {α : Type} (le : α → α → Bool) (a : α) : List α → List α
  | [] => [a]
  | b :: l => if le a b then a :: b :: l else b :: insertLe le a l

/-- Deterministic model of SQL `ORDER BY le`. -/
def sortByLe {α : Type} (le : α → α → Bool) : List α → List α
  | [] => []
  | a :: l => insertLe le a (sortByLe le l)

/-- `Class.get_next_class` (models.py:166-171):
`Class.objects.filter(course=self.course, order__gt=self.order).order_by('order').first()`. -/
def Class.get_next_class (db : DB) (self : Class) : Option Class :=
  (sortByLe (fun a b => decide (a.order ≤ b.order))
    (db.classes.filter
      (fun cl => cl.course == self.course && decide (self.order < cl.order)))).head?

/-- `Class.get_previous_class` (models.py:173-178):
`Class.objects.filter(course=self.course, order__lt=self.order).order_by('-order').first()`. -/
def Class.get_previous_class (db : DB) (self : Class) : Option Class :=
  (sortByLe (fun a b => decide (b.order ≤ a.order))
    (db.classes.filter
      (fun cl => cl.course == self.course && decide (cl.order < self.order)))).head?

/-- `Enrollment.update_progress` (models.py:491-498): counts the course's
classes, then does nothing (`pass`) — the documented placeholder.  The state
is returned unchanged on every path. -/
def Enrollment.update_progress (db : DB) (e : Enrollment) : DB :=
  let total_classes := (db.classes.filter (fun cl => cl.course == e.course)).length
  if total_classes > 0 then db else db

/-! ### Views (courses/views.py)

Each view yields `(response, catalogQueried)`; mutation views are modelled on
their `GET` path (the role/ownership checks under test run before any method
dispatch). -/

/-- A view response. -/
inductive Resp where
  | redirect (target : String)
  | render (template : String)
  | notFound
deriving DecidableEq, Repr

/-- `icontains` lookup: case-insensitive substring test (ASCII). -/
def substrCheck (needle : List Char) : List Char → Bool
  | [] => needle.isEmpty
  | c :: rest => needle.isPrefixOf (c :: rest) || substrCheck needle rest

/-- Django `field__icontains=q`. -/
def icontains (hay needle : String) : Bool :=
  substrCheck (needle.data.map Char.toLower) (hay.data.map Char.toLower)

/-- The `chef__username` join: username of the user with the given id. -/
def chefUsername (db : DB) (uid : Nat) : String :=
  match db.users.find? (fun u => u.id == uid) with
  | some u => u.username
  | none => ""

/-- Rows ordered by `Course.Meta.ordering = ['-created_at']` (models.py:67-68). -/
def sortByCreatedDesc (l : List Course) : List Course :=
  sortByLe (fun a b => decide (b.created_at ≤ a.created_at)) l

/-- `course_list` (views.py:47-70): published courses, optional free-text
filter (`if query:` — absent or empty means no filter), optional exact level
filter (`if level:`), delivered in the model's `-created_at` order.  The
function returns the `courses` context entry. -/
def course_list (db : DB) (q lvl : Option String) : List Course :=
  let cs := db.courses.filter (fun c => c.is_published)
  let cs := match q with
    | none => cs
    | some qs =>
      if qs.isEmpty then cs
      else cs.filter (fun c =>
        icontains c.title qs || icontains c.description qs ||
        icontains (chefUsername db c.chef) qs)
  let cs := match lvl with
    | none => cs
    | some ls => if ls.isEmpty then cs else cs.filter (fun c => c.level == ls)
  sortByCreatedDesc cs

/-- `course_detail` (views.py:73-96): `get_object_or_404(Course, slug=slug,
is_published=True)`; the requester plays no role in the lookup. -/
def course_detail (db : DB) (requester : Option User) (slug : String) : Resp × Bool :=
  match db.courses.find? (fun c => c.slug == slug && c.is_published) with
  | none => (Resp.notFound, true)
  | some _ => (Resp.render "courses/course_detail.html", true)

/-- `chef_dashboard` (views.py:117-144): role guard, then catalog queries. -/
def chef_dashboard (db : DB) (u : User) : Resp × Bool :=
  if !u.is_chef then (Resp.redirect "home", false)
  else (Resp.render "courses/chef_dashboard.html", true)

/-- `chef_courses` (views.py:151-160): role guard, then the chef's course list. -/
def chef_courses (db : DB) (u : User) : Resp × Bool :=
  if !u.is_chef then (Resp.redirect "home", false)
  else (Resp.render "courses/chef_courses.html", true)

/-- `course_create` (views.py:163-182): role guard; the `GET` path renders the
empty form without touching the catalog. -/
def course_create (db : DB) (u : User) : Resp × Bool :=
  if !u.is_chef then (Resp.redirect "home", false)
  else (Resp.render "courses/course_form.html", false)

/-- `course_edit` (views.py:185-208): `get_object_or_404(Course, slug=slug,
chef=request.user)` — no role guard; the ownership filter is part of the query. -/
def course_edit (db : DB) (u : User) (slug : String) : Resp × Bool :=
  match db.courses.find? (fun c => c.slug == slug && c.chef == u.id) with
  | none => (Resp.notFound, true)
  | some _ => (Resp.render "courses/course_form.html", true)

/-- `course_delete` (views.py:211-223): same ownership-scoped lookup. -/
def course_delete (db : DB) (u : User) (slug : String) : Resp × Bool :=
  match db.courses.find? (fun c => c.slug == slug && c.chef == u.id) with
  | none => (Resp.notFound, true)
  | some _ => (Resp.render "courses/course_confirm_delete.html", true)

/-- `class_create` (views.py:230-247): ownership-scoped course lookup. -/
def class_create (db : DB) (u : User) (course_slug : String) : Resp × Bool :=
  match db.courses.find? (fun c => c.slug == course_slug && c.chef == u.id) with
  | none => (Resp.notFound, true)
  | some _ => (Resp.render "courses/class_form.html", true)

/-- The `course__chef` join used by the class lookups. -/
def courseChefIs (db : DB) (cid uid : Nat) : Bool :=
  match db.courses.find? (fun c => c.id == cid) with
  | some c => c.chef == uid
  | none => false

/-- `class_edit` (views.py:250-265): `get_object_or_404(Class, pk=pk,
course__chef=request.user)`. -/
def class_edit (db : DB) (u : User) (pk : Nat) : Resp × Bool :=
  match db.classes.find? (fun cl => cl.id == pk && courseChefIs db cl.course u.id) with
  | none => (Resp.notFound, true)
  | some _ => (Resp.render "courses/class_form.html", true)

/-- `class_delete` (views.py:268-281): same lookup as `class_edit`. -/
def class_delete (db : DB) (u : User) (pk : Nat) : Resp × Bool :=
  match db.classes.find? (fun cl => cl.id == pk && courseChefIs db cl.course u.id) with
  | none => (Resp.notFound, true)
  | some _ => (Resp.render "courses/class_confirm_delete.html", true)

/-! ### Helper lemmas: decimal rendering -/

lemma decVal_append_digit (l : List Char) (c : Char) :
    decVal (l ++ [c]) = decVal l * 10 + (c.toNat - 48) := by
  simp [decVal, List.foldl_append]

lemma decDigit_toNat : ∀ d, d < 10 → (decDigit d).toNat = 48 + d := by decide

lemma decVal_decStrAux : ∀ fuel n, n ≤ fuel → decVal (decStrAux fuel n) = n := by
  intro fuel
  induction fuel with
  | zero =>
    intro n h
    simp only [decStrAux, decVal, List.foldl_nil]
    omega
  | succ f ih =>
    intro n h
    by_cases h0 : n = 0
    · simp [decStrAux, h0, decVal]
    · rw [decStrAux, if_neg h0, decVal_append_digit, ih (n / 10) (by omega),
        decDigit_toNat (n % 10) (by omega)]
      omega

lemma decVal_decStr (n : Nat) : decVal (decStr n).data = n := by
  by_cases h : n = 0
  · subst h; decide
  · rw [decStr, if_neg h]
    exact decVal_decStrAux n n (Nat.le_refl n)

lemma decStr_injective : Function.Injective decStr := by
  intro m n h
  have hm := decVal_decStr m
  rw [h, decVal_decStr] at hm
  exact hm.symm

/-! ### Helper lemmas: slug candidates -/

lemma scand_data (base : String) (i : Nat) :
    (scand base i).data = base.data ++ '-' :: (decStr i).data := by
  simp [scand, String.data_append]

lemma scand_injective (base : String) : Function.Injective (scand base) := by
  intro i j h
  apply decStr_injective
  apply String.ext
  have h2 : (scand base i).data = (scand base j).data := by rw [h]
  rw [scand_data, scand_data] at h2
  have h3 := List.append_cancel_left h2
  simpa using h3

lemma base_ne_scand (base : String) (i : Nat) : base ≠ scand base i := by
  intro h
  have hlen : base.data.length = (scand base i).data.length := by rw [← h]
  rw [scand_data] at hlen
  simp [List.length_append] at hlen

/-- Pigeonhole: if the base and the suffixed candidates `1..n` are all taken,
the table has more than `n` rows. -/
lemma seq_lt_length (ex : List String) (base : String) (n : Nat)
    (hb : base ∈ ex) (hin : ∀ i, 1 ≤ i → i ≤ n → scand base i ∈ ex) :
    n < ex.length := by
  have hsub : (base :: (List.range' 1 n).map (scand base)) ⊆ ex := by
    intro a ha
    rcases List.mem_cons.mp ha with rfl | ha'
    · exact hb
    · rcases List.mem_map.mp ha' with ⟨i, hi, rfl⟩
      rcases List.mem_range'.mp hi with ⟨k, hk, rfl⟩
      exact hin _ (by omega) (by omega)
  have hnd : (base :: (List.range' 1 n).map (scand base)).Nodup := by
    refine List.nodup_cons.mpr ⟨?_, ?_⟩
    · intro hmem
      rcases List.mem_map.mp hmem with ⟨i, _, hEq⟩
      exact base_ne_scand base i hEq.symm
    · exact (List.nodup_range' 1 n).map (scand_injective base)
  have hle := (List.subperm_of_subset hnd hsub).length_le
  simp at hle
  omega

/-! ### Helper lemmas: the slug-assignment loop -/

lemma uniqueSlug_base_free {ex : List String} {base : String} (hb : base ∉ ex) :
    uniqueSlug ex base = base := by
  simp [uniqueSlug, slugSearch, hb]

lemma slugSearch_not_mem (ex : List String) (base : String) :
    ∀ fuel c slug, (∃ i, c ≤ i ∧ i < c + fuel ∧ scand base i ∉ ex) →
      slugSearch ex base (fuel + 1) slug c ∉ ex := by
  intro fuel
  induction fuel with
  | zero =>
    intro c slug h
    obtain ⟨i, h1, h2, _⟩ := h
    omega
  | succ f ih =>
    intro c slug h
    obtain ⟨i, h1, h2, hfree⟩ := h
    by_cases hs : slug ∈ ex
    · rw [slugSearch, if_pos hs]
      by_cases hic : i = c
      · subst hic
        rw [slugSearch, if_neg hfree]
        exact hfree
      · exact ih (c + 1) (scand base c) ⟨i, by omega, by omega, hfree⟩
    · rw [slugSearch, if_neg hs]
      exact hs

/-- The slug assigned by the loop is never one already in the table. -/
lemma uniqueSlug_not_mem (ex : List String) (base : String) : uniqueSlug ex base ∉ ex := by
  by_cases hb : base ∈ ex
  · have hfree : ∃ i, 1 ≤ i ∧ i < 1 + ex.length ∧ scand base i ∉ ex := by
      by_contra hcon
      push_neg at hcon
      have hlen := seq_lt_length ex base ex.length hb
        (fun i h1 h2 => hcon i h1 (by omega))
      omega
    exact slugSearch_not_mem ex base ex.length 1 base hfree
  · rw [uniqueSlug_base_free hb]
    exact hb

lemma slugSearch_seq (ex : List String) (base : String) :
    ∀ n fuel c, n < fuel →
      (∀ i, c ≤ i → i < c + n → scand base i ∈ ex) →
      scand base (c + n) ∉ ex →
      slugSearch ex base fuel (scand base c) (c + 1) = scand base (c + n) := by
  intro n
  induction n with
  | zero =>
    intro fuel c hf hin hout
    obtain ⟨f, rfl⟩ : ∃ f, fuel = f + 1 := ⟨fuel - 1, by omega⟩
    rw [slugSearch, if_neg (by simpa using hout)]
    simp
  | succ n ih =>
    intro fuel c hf hin hout
    obtain ⟨f, rfl⟩ : ∃ f, fuel = f + 1 := ⟨fuel - 1, by omega⟩
    have hc : scand base c ∈ ex := hin c (Nat.le_refl c) (by omega)
    rw [slugSearch, if_pos hc]
    have hrec := ih f (c + 1) (by omega)
      (fun i h1 h2 => hin i (by omega) (by omega))
      (by have he : c + 1 + n = c + (n + 1) := by omega
          rw [he]; exact hout)
    rw [hrec]
    congr 1
    omega

/-- Sequential suffixing: base taken, suffixes `1..n` taken, `n+1` free
yields `base-(n+1)`. -/
lemma uniqueSlug_seq (ex : List String) (base : String) (n : Nat)
    (hb : base ∈ ex)
    (hin : ∀ i, 1 ≤ i → i ≤ n → scand base i ∈ ex)
    (hout : scand base (n + 1) ∉ ex) :
    uniqueSlug ex base = scand base (n + 1) := by
  have hn : n < ex.length := seq_lt_length ex base n hb hin
  rw [uniqueSlug, slugSearch, if_pos hb]
  have hrec := slugSearch_seq ex base n ex.length 1 hn
    (fun i h1 h2 => hin i h1 (by omega))
    (by have he : (1 : Nat) + n = n + 1 := by omega
        rw [he]; exact hout)
  rw [hrec]
  congr 1
  omega

/-! ### Helper lemmas: the sort model -/

lemma insertLe_perm {α : Type} (le : α → α → Bool) (a : α) (l : List α) :
    (insertLe le a l).Perm (a :: l) := by
  induction l with
  | nil => rfl
  | cons b l ih =>
    rw [insertLe]
    by_cases h : le a b
    · rw [if_pos h]
    · rw [if_neg h]
      exact (ih.cons b).trans (List.Perm.swap a b l)

lemma sortByLe_perm {α : Type} (le : α → α → Bool) (l : List α) : (sortByLe le l).Perm l := by
  induction l with
  | nil => rfl
  | cons a l ih =>
    rw [sortByLe]
    exact (insertLe_perm le a (sortByLe le l)).trans (ih.cons a)

lemma insertLe_pairwise {α : Type} {le : α → α → Bool}
    (htot : ∀ x y, (le x y || le y x) = true)
    (htrans : ∀ x y z, le x y = true → le y z = true → le x z = true)
    (a : α) {l : List α} (hl : l.Pairwise (fun x y => le x y = true)) :
    (insertLe le a l).Pairwise (fun x y => le x y = true) := by
  induction l with
  | nil => simp [insertLe]
  | cons b l ih =>
    obtain ⟨hb, hl'⟩ := List.pairwise_cons.mp hl
    rw [insertLe]
    by_cases h : le a b = true
    · rw [if_pos h]
      refine List.pairwise_cons.mpr ⟨?_, hl⟩
      intro x hx
      rcases List.mem_cons.mp hx with rfl | hx'
      · exact h
      · exact htrans a b x h (hb x hx')
    · rw [if_neg h]
      refine List.pairwise_cons.mpr ⟨?_, ih hl'⟩
      intro x hx
      rcases List.mem_cons.mp ((insertLe_perm le a l).mem_iff.mp hx) with rfl | hx'
      · have hor := htot x b
        simp only [Bool.or_eq_true] at hor
        rcases hor with hab | hba
        · exact absurd hab h
        · exact hba
      · exact hb x hx'

lemma sortByLe_pairwise {α : Type} {le : α → α → Bool}
    (htot : ∀ x y, (le x y || le y x) = true)
    (htrans : ∀ x y z, le x y = true → le y z = true → le x z = true)
    (l : List α) :
    (sortByLe le l).Pairwise (fun x y => le x y = true) := by
  induction l with
  | nil => simp [sortByLe]
  | cons a l ih =>
    rw [sortByLe]
    exact insertLe_pairwise htot htrans a ih

lemma sortByLe_head_none {α : Type} (le : α → α → Bool) (l : List α) :
    (sortByLe le l).head? = none ↔ l = [] := by
  rw [List.head?_eq_none_iff]
  constructor
  · intro h
    exact List.nil_perm.mp (h ▸ sortByLe_perm le l)
  · intro h
    rw [h]
    rfl

lemma sortByLe_head_min {α : Type} {le : α → α → Bool}
    (htot : ∀ x y, (le x y || le y x) = true)
    (htrans : ∀ x y z, le x y = true → le y z = true → le x z = true)
    {l : List α} {a : α} (h : (sortByLe le l).head? = some a) :
    a ∈ l ∧ ∀ b ∈ l, le a b = true := by
  obtain ⟨ys, hys⟩ := List.head?_eq_some_iff.mp h
  have hperm := sortByLe_perm le l
  constructor
  · exact hperm.mem_iff.mp (by rw [hys]; exact List.mem_cons_self a ys)
  · intro b hb
    have hbmem : b ∈ a :: ys := by rw [← hys]; exact hperm.mem_iff.mpr hb
    rcases List.mem_cons.mp hbmem with rfl | hb'
    · have := htot b b
      simpa using this
    · have hpw : (sortByLe le l).Pairwise (fun x y => le x y = true) :=
        sortByLe_pairwise htot htrans l
      rw [hys] at hpw
      exact List.rel_of_pairwise_cons hpw hb'

/-! ### Concrete fixtures used by witnesses and the counterexample -/

/-- A chef account. -/
def annaChef : User := ⟨1, "anna", "CHEF"⟩

/-- A second chef account. -/
def markChef : User := ⟨2, "mark", "CHEF"⟩

/-- A student account. -/
def bethStudent : User := ⟨3, "beth", "STUDENT"⟩

/-- A published course owned by `annaChef`. -/
def italianCourse : Course :=
  ⟨1, 1, "Italian Basics", "italian-basics", "Pasta and sauces", "BEGINNER", true, 5⟩

/-- An unpublished course owned by `annaChef`. -/
def draftCourse : Course :=
  ⟨2, 1, "Secret Draft", "secret-draft", "Work in progress", "ADVANCED", false, 6⟩

/-- Three ordered lessons of `italianCourse`. -/
def knivesLesson : Class := ⟨1, 1, "Knives", 1, 10, 1⟩

def saucesLesson : Class := ⟨2, 1, "Sauces", 2, 15, 2⟩

def platingLesson : Class := ⟨3, 1, "Plating", 3, 20, 3⟩

/-- Catalog fixture: two chefs, one student, two courses, three lessons. -/
def exDb : DB := ⟨[annaChef, markChef, bethStudent], [italianCourse, draftCourse],
  [knivesLesson, saucesLesson, platingLesson], [], [], []⟩

/-- Enrollment fixture: two paid enrollments (49.99 and 30.00) and one unpaid
one for course 1; nothing for course 2. -/
def exDb6 : DB := ⟨[], [], [], [], [],
  [⟨1, 5, 1, true, 4999/100, 0, false⟩, ⟨2, 6, 1, true, 3000/100, 0, false⟩,
   ⟨3, 7, 1, false, 11, 0, false⟩]⟩

/-! ### Claims -/

/-- The three conclusions of the slug-assignment contract for one entity type
whose stored slugs are `ex`. -/
lemma save_slug_spec (ex : List String) (base : String) (n : Nat) :
    (base ∉ ex → uniqueSlug ex base = base)
    ∧ (base ∈ ex → (∀ i, 1 ≤ i → i ≤ n → scand base i ∈ ex) →
        scand base (n + 1) ∉ ex → uniqueSlug ex base = scand base (n + 1))
    ∧ uniqueSlug ex base ∉ ex :=
  ⟨fun h => uniqueSlug_base_free h,
   fun hb hin hout => uniqueSlug_seq ex base n hb hin hout,
   uniqueSlug_not_mem ex base⟩

/-- **C1.** A Course (likewise Recipe and Book) saved with no slug supplied
gets the slugified base of its title when that base is free among the entity
type's stored slugs `ex`; when the base is taken and suffixes `1..n` are
taken, it gets `base-(n+1)` — so sequential creations receive `-1`, `-2`, …
monotonically and gap-free — and the assigned slug is always unique within
the entity type at the moment of save. -/
theorem C1_slug_assignment (ex : List String) (c : Course) (r : Recipe) (b : Book) (n : Nat)
    (hc : c.slug = "") (hr : r.slug = "") (hbk : b.slug = "") :
    ((slugify c.title ∉ ex → (Course.save ex c).slug = slugify c.title)
      ∧ (slugify c.title ∈ ex →
          (∀ i, 1 ≤ i → i ≤ n → scand (slugify c.title) i ∈ ex) →
          scand (slugify c.title) (n + 1) ∉ ex →
          (Course.save ex c).slug = scand (slugify c.title) (n + 1))
      ∧ (Course.save ex c).slug ∉ ex)
    ∧ ((slugify r.title ∉ ex → (Recipe.save ex r).slug = slugify r.title)
      ∧ (slugify r.title ∈ ex →
          (∀ i, 1 ≤ i → i ≤ n → scand (slugify r.title) i ∈ ex) →
          scand (slugify r.title) (n + 1) ∉ ex →
          (Recipe.save ex r).slug = scand (slugify r.title) (n + 1))
      ∧ (Recipe.save ex r).slug ∉ ex)
    ∧ ((slugify b.title ∉ ex → (Book.save ex b).slug = slugify b.title)
      ∧ (slugify b.title ∈ ex →
          (∀ i, 1 ≤ i → i ≤ n → scand (slugify b.title) i ∈ ex) →
          scand (slugify b.title) (n + 1) ∉ ex →
          (Book.save ex b).slug = scand (slugify b.title) (n + 1))
      ∧ (Book.save ex b).slug ∉ ex) := by
  have hcs : (Course.save ex c).slug = uniqueSlug ex (slugify c.title) := by
    simp [Course.save, hc]
  have hrs : (Recipe.save ex r).slug = uniqueSlug ex (slugify r.title) := by
    simp [Recipe.save, hr]
  have hbs : (Book.save ex b).slug = uniqueSlug ex (slugify b.title) := by
    simp [Book.save, hbk]
  rw [hcs, hrs, hbs]
  exact ⟨save_slug_spec ex (slugify c.title) n, save_slug_spec ex (slugify r.title) n,
    save_slug_spec ex (slugify b.title) n⟩

/-- Witness for C1, on the spec's own scenario: three sequential creations of
`Course(title="Italian Basics")` yield `italian-basics`, `italian-basics-1`,
`italian-basics-2`. -/
theorem C1_slug_assignment_witness :
    (Course.save [] ⟨1, 1, "Italian Basics", "", "", "BEGINNER", false, 0⟩).slug
        = "italian-basics"
    ∧ (Course.save ["italian-basics"]
        ⟨2, 1, "Italian Basics", "", "", "BEGINNER", false, 0⟩).slug = "italian-basics-1"
    ∧ (Course.save ["italian-basics", "italian-basics-1"]
        ⟨3, 1, "Italian Basics", "", "", "BEGINNER", false, 0⟩).slug = "italian-basics-2" := by
  refine ⟨?_, ?_, ?_⟩
  · have h := (C1_slug_assignment [] ⟨1, 1, "Italian Basics", "", "", "BEGINNER", false, 0⟩
      ⟨1, "x", ""⟩ ⟨1, "x", ""⟩ 0 rfl rfl rfl).1.1 (by decide)
    exact h.trans (by decide)
  · have h := (C1_slug_assignment ["italian-basics"]
      ⟨2, 1, "Italian Basics", "", "", "BEGINNER", false, 0⟩
      ⟨1, "x", ""⟩ ⟨1, "x", ""⟩ 0 rfl rfl rfl).1.2.1 (by decide)
      (fun i h1 h2 => absurd (h1.trans h2) (by decide)) (by decide)
    exact h.trans (by decide)
  · have h := (C1_slug_assignment ["italian-basics", "italian-basics-1"]
      ⟨3, 1, "Italian Basics", "", "", "BEGINNER", false, 0⟩
      ⟨1, "x", ""⟩ ⟨1, "x", ""⟩ 1 rfl rfl rfl).1.2.1 (by decide)
      (fun i h1 h2 => by
        have hi : i = 1 := by omega
        subst hi
        decide) (by decide)
    exact h.trans (by decide)

/-- **C2.** `is_admin(u)` holds exactly when `u.role` is ADMIN or CHEF, so
every user satisfying `is_chef` also satisfies `is_admin`. -/
theorem C2_is_admin_role (u : User) :
    (u.is_admin = true ↔ (u.role = "ADMIN" ∨ u.role = "CHEF"))
    ∧ (u.is_chef = true → u.is_admin = true) := by
  constructor
  · simp [User.is_admin]
  · intro h
    simp only [User.is_chef, beq_iff_eq] at h
    simp [User.is_admin, h]

/-- Witness for C2: a chef account passes `is_admin`. -/
theorem C2_is_admin_role_witness :
    annaChef.is_admin = true ∧ bethStudent.is_admin = false := by
  constructor
  · exact (C2_is_admin_role annaChef).2 (by decide)
  · decide

/-- **C5.** A course that already has a slug keeps it on every subsequent
save, even when the title is changed; the slug is only computed on the save
where it is absent (`if not self.slug`). -/
theorem C5_slug_stable (ex : List String) (c : Course) (newTitle : String)
    (h : c.slug ≠ "") :
    (Course.save ex { c with title := newTitle }).slug = c.slug := by
  simp [Course.save, h]

/-- Witness for C5: re-saving `italianCourse` under a new title keeps
`italian-basics`. -/
theorem C5_slug_stable_witness :
    (Course.save ["italian-basics"]
      { italianCourse with title := "Totally New Title" }).slug = "italian-basics" :=
  C5_slug_stable ["italian-basics"] italianCourse "Totally New Title" (by decide)

/-- **C9.** `update_progress` performs no observable write: the entire store
(and with it every enrollment field) is unchanged, whatever the course's
lessons look like. -/
theorem C9_update_progress_noop (db : DB) (e : Enrollment) :
    Enrollment.update_progress db e = db := by
  simp [Enrollment.update_progress]

/-- Counterexample to C3 as stated: an authenticated non-chef requesting the
chef-scoped course-edit route receives a not-found response produced by an
executed ownership-filtered catalog query — not a redirect to home with the
query never executed. -/
theorem C3_counterexample :
    bethStudent.is_chef = false
    ∧ course_edit exDb bethStudent "italian-basics" = (Resp.notFound, true)
    ∧ course_edit exDb bethStudent "italian-basics" ≠ (Resp.redirect "home", false) := by
  refine ⟨by decide, by decide, by decide⟩

/-- **C3 (amended).** For an authenticated non-chef user: the explicitly
guarded chef routes (dashboard, chef course list, course create) redirect to
home without executing any catalog query; the ownership-scoped management
routes (course edit/delete, class create/edit/delete) instead execute the
ownership-filtered lookup and answer not-found whenever the user owns no
course rows. -/
theorem C3_nonchef_routes (db : DB) (u : User) (slug : String) (pk : Nat)
    (hrole : u.is_chef = false)
    (hown : ∀ c ∈ db.courses, c.chef ≠ u.id) :
    chef_dashboard db u = (Resp.redirect "home", false)
    ∧ chef_courses db u = (Resp.redirect "home", false)
    ∧ course_create db u = (Resp.redirect "home", false)
    ∧ course_edit db u slug = (Resp.notFound, true)
    ∧ course_delete db u slug = (Resp.notFound, true)
    ∧ class_create db u slug = (Resp.notFound, true)
    ∧ class_edit db u pk = (Resp.notFound, true)
    ∧ class_delete db u pk = (Resp.notFound, true) := by
  have hfindC : ∀ s, db.courses.find? (fun c => c.slug == s && c.chef == u.id) = none := by
    intro s
    rw [List.find?_eq_none]
    intro x hx
    simp only [Bool.and_eq_true, beq_iff_eq, not_and]
    intro _
    exact fun h => hown x hx h
  have hchefIs : ∀ cid, courseChefIs db cid u.id = false := by
    intro cid
    unfold courseChefIs
    cases hfind : db.courses.find? (fun c => c.id == cid) with
    | none => rfl
    | some c =>
      have hc := List.mem_of_find?_eq_some hfind
      simp only [beq_eq_false_iff_ne, ne_eq]
      exact hown c hc
  have hfindCl :
      db.classes.find? (fun cl => cl.id == pk && courseChefIs db cl.course u.id) = none := by
    rw [List.find?_eq_none]
    intro x hx
    simp [hchefIs x.course]
  refine ⟨?_, ?_, ?_, ?_, ?_, ?_, ?_, ?_⟩ <;>
    simp [chef_dashboard, chef_courses, course_create, course_edit, course_delete,
      class_create, class_edit, class_delete, hrole, hfindC, hfindCl]

/-- Witness for the amended C3, at a concrete student request. -/
theorem C3_nonchef_routes_witness :
    chef_dashboard exDb bethStudent = (Resp.redirect "home", false)
    ∧ course_edit exDb bethStudent "italian-basics" = (Resp.notFound, true)
    ∧ class_edit exDb bethStudent 1 = (Resp.notFound, true) := by
  have h := C3_nonchef_routes exDb bethStudent "italian-basics" 1 (by decide) (by decide)
  exact ⟨h.1, h.2.2.2.1, h.2.2.2.2.2.2.1⟩

/-- **C4.** A chef requesting the course-edit route of a course owned by a
different chef receives not-found — the ownership equality filter excludes
the row inside the executed query — not an access-denied message or
redirect. -/
theorem C4_other_chef_notfound (db : DB) (u : User) (c : Course)
    (hchef : u.is_chef = true) (hmem : c ∈ db.courses) (hother : c.chef ≠ u.id)
    (huniq : ∀ c' ∈ db.courses, c'.slug = c.slug → c' = c) :
    course_edit db u c.slug = (Resp.notFound, true)
    ∧ ∀ t, (course_edit db u c.slug).1 ≠ Resp.redirect t := by
  have hfind : db.courses.find? (fun c' => c'.slug == c.slug && c'.chef == u.id) = none := by
    rw [List.find?_eq_none]
    intro x hx
    simp only [Bool.and_eq_true, beq_iff_eq, not_and]
    intro hslug
    rw [huniq x hx hslug]
    exact hother
  constructor
  · simp [course_edit, hfind]
  · intro t
    simp [course_edit, hfind]

/-- Witness for C4: `markChef` requesting `annaChef`'s course. -/
theorem C4_other_chef_notfound_witness :
    course_edit exDb markChef "italian-basics" = (Resp.notFound, true) :=
  (C4_other_chef_notfound exDb markChef italianCourse (by decide) (by decide)
    (by decide) (by decide)).1

/-- **C10.** An unpublished course's public detail route answers not-found
for every requester, including the owning chef: the lookup filters on
`is_published=True` and never consults the requester. -/
theorem C10_unpublished_detail (db : DB) (c : Course)
    (hmem : c ∈ db.courses) (hunpub : c.is_published = false)
    (huniq : ∀ c' ∈ db.courses, c'.slug = c.slug → c' = c) :
    ∀ requester : Option User, course_detail db requester c.slug = (Resp.notFound, true) := by
  intro requester
  have hfind : db.courses.find? (fun c' => c'.slug == c.slug && c'.is_published) = none := by
    rw [List.find?_eq_none]
    intro x hx
    simp only [Bool.and_eq_true, beq_iff_eq, not_and]
    intro hslug
    rw [huniq x hx hslug, hunpub]
    simp
  simp [course_detail, hfind]

/-- Witness for C10: the owner herself gets not-found on her own draft. -/
theorem C10_unpublished_detail_witness :
    course_detail exDb (some annaChef) "secret-draft" = (Resp.notFound, true) :=
  C10_unpublished_detail exDb draftCourse (by decide) (by decide) (by decide) (some annaChef)

/-- **C6.** `get_total_revenue` equals the exact (drift-free) sum of
`amount_paid` over the course's paid enrollments, and equals 0 — never
null — when the course has no paid enrollment. -/
theorem C6_total_revenue (db : DB) (courseId : Nat) :
    Course.get_total_revenue db courseId
      = ((db.enrollments.filter (fun e => e.course == courseId && e.is_paid)).map
          (fun e => e.amount_paid)).sum
    ∧ ((∀ e ∈ db.enrollments, e.course = courseId → e.is_paid = false) →
        Course.get_total_revenue db courseId = 0) := by
  have hmain : ∀ l : List ℚ, (sumAgg l).getD 0 = l.sum := by
    intro l
    unfold sumAgg
    by_cases h : l = []
    · rw [if_pos h, h]
      simp
    · rw [if_neg h]
      rfl
  constructor
  · exact hmain _
  · intro hnone
    have hfilter : db.enrollments.filter (fun e => e.course == courseId && e.is_paid) = [] := by
      rw [List.filter_eq_nil_iff]
      intro e he
      simp only [Bool.and_eq_true, beq_iff_eq, not_and]
      intro hc
      rw [hnone e he hc]
      simp
    unfold Course.get_total_revenue
    rw [hfilter]
    simp [sumAgg]

/-- Witness for C6 on the spec scenario: paid 49.99 and 30.00 plus one unpaid
row gives exactly 79.99; a course with no paid enrollments gives 0. -/
theorem C6_total_revenue_witness :
    Course.get_total_revenue exDb6 1 = 7999/100
    ∧ Course.get_total_revenue exDb6 2 = 0 := by
  constructor
  · rw [(C6_total_revenue exDb6 1).1]
    show (4999/100 : ℚ) + (3000/100 + 0) = 7999/100
    norm_num
  · exact (C6_total_revenue exDb6 2).2 (by decide)

/-- Sorting does not change membership. -/
lemma mem_sortByLe {α : Type} (le : α → α → Bool) (l : List α) (a : α) :
    a ∈ sortByLe le l ↔ a ∈ l :=
  (sortByLe_perm le l).mem_iff

/-- The descending-`created_at` order delivered by the course sort. -/
lemma sortByCreatedDesc_pairwise (l : List Course) :
    (sortByCreatedDesc l).Pairwise (fun a b => b.created_at ≤ a.created_at) := by
  have htot : ∀ x y : Course,
      ((fun a b : Course => decide (b.created_at ≤ a.created_at)) x y
        || (fun a b : Course => decide (b.created_at ≤ a.created_at)) y x) = true := by
    intro x y
    rcases Nat.le_total y.created_at x.created_at with h | h <;> simp [h]
  have htrans : ∀ x y z : Course,
      (fun a b : Course => decide (b.created_at ≤ a.created_at)) x y = true →
      (fun a b : Course => decide (b.created_at ≤ a.created_at)) y z = true →
      (fun a b : Course => decide (b.created_at ≤ a.created_at)) x z = true := by
    intro x y z h1 h2
    simp only [decide_eq_true_eq] at h1 h2 ⊢
    omega
  have hpw := sortByLe_pairwise htot htrans l
  exact hpw.imp (fun h => by simpa using h)

/-- **C7.** `get_next_class` yields a lesson of the same course with order
strictly above the current one and minimal among those, and yields none
exactly when no such lesson exists; `get_previous_class` symmetrically with
the maximal order strictly below; and both results depend only on the
lessons of the lesson's own course. -/
theorem C7_next_previous (db : DB) (self : Class) :
    ((Class.get_next_class db self = none ↔
        ∀ cl ∈ db.classes, cl.course = self.course → ¬self.order < cl.order)
      ∧ ∀ cl, Class.get_next_class db self = some cl →
          cl ∈ db.classes ∧ cl.course = self.course ∧ self.order < cl.order ∧
          ∀ cl' ∈ db.classes, cl'.course = self.course → self.order < cl'.order →
            cl.order ≤ cl'.order)
    ∧ ((Class.get_previous_class db self = none ↔
        ∀ cl ∈ db.classes, cl.course = self.course → ¬cl.order < self.order)
      ∧ ∀ cl, Class.get_previous_class db self = some cl →
          cl ∈ db.classes ∧ cl.course = self.course ∧ cl.order < self.order ∧
          ∀ cl' ∈ db.classes, cl'.course = self.course → cl'.order < self.order →
            cl'.order ≤ cl.order)
    ∧ ∀ db' : DB,
        db'.classes.filter (fun cl => cl.course == self.course)
          = db.classes.filter (fun cl => cl.course == self.course) →
        Class.get_next_class db' self = Class.get_next_class db self
        ∧ Class.get_previous_class db' self = Class.get_previous_class db self := by
  have htotN : ∀ x y : Class,
      ((fun a b : Class => decide (a.order ≤ b.order)) x y
        || (fun a b : Class => decide (a.order ≤ b.order)) y x) = true := by
    intro x y
    rcases Nat.le_total x.order y.order with h | h <;> simp [h]
  have htransN : ∀ x y z : Class,
      (fun a b : Class => decide (a.order ≤ b.order)) x y = true →
      (fun a b : Class => decide (a.order ≤ b.order)) y z = true →
      (fun a b : Class => decide (a.order ≤ b.order)) x z = true := by
    intro x y z h1 h2
    simp only [decide_eq_true_eq] at h1 h2 ⊢
    omega
  have htotP : ∀ x y : Class,
      ((fun a b : Class => decide (b.order ≤ a.order)) x y
        || (fun a b : Class => decide (b.order ≤ a.order)) y x) = true := by
    intro x y
    rcases Nat.le_total y.order x.order with h | h <;> simp [h]
  have htransP : ∀ x y z : Class,
      (fun a b : Class => decide (b.order ≤ a.order)) x y = true →
      (fun a b : Class => decide (b.order ≤ a.order)) y z = true →
      (fun a b : Class => decide (b.order ≤ a.order)) x z = true := by
    intro x y z h1 h2
    simp only [decide_eq_true_eq] at h1 h2 ⊢
    omega
  refine ⟨⟨?_, ?_⟩, ⟨?_, ?_⟩, ?_⟩
  · rw [Class.get_next_class, sortByLe_head_none, List.filter_eq_nil_iff]
    constructor
    · intro h cl hcl hc
      have := h cl hcl
      simp only [Bool.and_eq_true, beq_iff_eq, decide_eq_true_eq, not_and] at this
      exact this hc
    · intro h cl hcl
      simp only [Bool.and_eq_true, beq_iff_eq, decide_eq_true_eq, not_and]
      exact h cl hcl
  · intro cl h
    obtain ⟨hmem, hmin⟩ := sortByLe_head_min htotN htransN h
    rw [List.mem_filter] at hmem
    obtain ⟨hcl, hcond⟩ := hmem
    simp only [Bool.and_eq_true, beq_iff_eq, decide_eq_true_eq] at hcond
    refine ⟨hcl, hcond.1, hcond.2, ?_⟩
    intro cl' hcl' hc' ho'
    have hin : cl' ∈ db.classes.filter
        (fun x => x.course == self.course && decide (self.order < x.order)) := by
      rw [List.mem_filter]
      exact ⟨hcl', by simp [hc', ho']⟩
    have := hmin cl' hin
    simpa using this
  · rw [Class.get_previous_class, sortByLe_head_none, List.filter_eq_nil_iff]
    constructor
    · intro h cl hcl hc
      have := h cl hcl
      simp only [Bool.and_eq_true, beq_iff_eq, decide_eq_true_eq, not_and] at this
      exact this hc
    · intro h cl hcl
      simp only [Bool.and_eq_true, beq_iff_eq, decide_eq_true_eq, not_and]
      exact h cl hcl
  · intro cl h
    obtain ⟨hmem, hmin⟩ := sortByLe_head_min htotP htransP h
    rw [List.mem_filter] at hmem
    obtain ⟨hcl, hcond⟩ := hmem
    simp only [Bool.and_eq_true, beq_iff_eq, decide_eq_true_eq] at hcond
    refine ⟨hcl, hcond.1, hcond.2, ?_⟩
    intro cl' hcl' hc' ho'
    have hin : cl' ∈ db.classes.filter
        (fun x => x.course == self.course && decide (x.order < self.order)) := by
      rw [List.mem_filter]
      exact ⟨hcl', by simp [hc', ho']⟩
    have := hmin cl' hin
    simpa using this
  · intro db' hfilter
    have hsplit : ∀ (d : DB) (p : Class → Bool),
        d.classes.filter (fun cl => cl.course == self.course && p cl)
          = (d.classes.filter (fun cl => cl.course == self.course)).filter p := by
      intro d p
      rw [List.filter_filter]
      apply List.filter_congr
      intro a _
      exact Bool.and_comm (p a) (a.course == self.course) ▸ rfl
    constructor
    · rw [Class.get_next_class, Class.get_next_class, hsplit db', hsplit db, hfilter]
    · rw [Class.get_previous_class, Class.get_previous_class, hsplit db', hsplit db, hfilter]

/-- Witness for C7 at the spec's `order = [1,2,3]` example. -/
theorem C7_next_previous_witness :
    Class.get_next_class exDb knivesLesson = some saucesLesson
    ∧ Class.get_next_class exDb platingLesson = none
    ∧ Class.get_previous_class exDb knivesLesson = none
    ∧ (saucesLesson ∈ exDb.classes ∧ saucesLesson.course = knivesLesson.course
        ∧ knivesLesson.order < saucesLesson.order
        ∧ ∀ cl' ∈ exDb.classes, cl'.course = knivesLesson.course →
            knivesLesson.order < cl'.order → saucesLesson.order ≤ cl'.order) := by
  refine ⟨by decide, ?_, ?_, ?_⟩
  · exact (C7_next_previous exDb platingLesson).1.1.mpr (by decide)
  · exact (C7_next_previous exDb knivesLesson).2.1.1.mpr (by decide)
  · exact (C7_next_previous exDb knivesLesson).1.2 saucesLesson (by decide)

/-- The free-text condition of the course-list contract on one course:
vacuously true when no (or an empty) query is given. -/
def qMatches (db : DB) (q : Option String) (c : Course) : Bool :=
  match q with
  | none => true
  | some qs => qs.isEmpty || (icontains c.title qs || icontains c.description qs ||
      icontains (chefUsername db c.chef) qs)

/-- The level condition of the course-list contract on one course. -/
def lvlMatches (lvl : Option String) (c : Course) : Bool :=
  match lvl with
  | none => true
  | some ls => ls.isEmpty || c.level == ls

/-- **C8.** The course-list view returns exactly the published courses that
satisfy the optional case-insensitive free-text filter (substring of title,
description or chef username) and the optional exact level filter, ordered
most-recently-created first. -/
theorem C8_course_list (db : DB) (q lvl : Option String) :
    (∀ c, c ∈ course_list db q lvl ↔
      (c ∈ db.courses ∧ c.is_published = true
        ∧ qMatches db q c = true ∧ lvlMatches lvl c = true))
    ∧ (course_list db q lvl).Pairwise (fun a b => b.created_at ≤ a.created_at) := by
  constructor
  · intro c
    unfold course_list sortByCreatedDesc
    cases q with
    | none =>
      cases lvl with
      | none => simp [mem_sortByLe, qMatches, lvlMatches, List.mem_filter, and_assoc] <;> tauto
      | some ls =>
        by_cases h : ls.isEmpty <;>
          simp [mem_sortByLe, qMatches, lvlMatches, List.mem_filter, h, and_assoc] <;> tauto
    | some qs =>
      by_cases hq : qs.isEmpty
      · cases lvl with
        | none => simp [mem_sortByLe, qMatches, lvlMatches, List.mem_filter, hq, and_assoc] <;> tauto
        | some ls =>
          by_cases h : ls.isEmpty <;>
            simp [mem_sortByLe, qMatches, lvlMatches, List.mem_filter, hq, h, and_assoc] <;> tauto
      · cases lvl with
        | none => simp [mem_sortByLe, qMatches, lvlMatches, List.mem_filter, hq, and_assoc] <;> tauto
        | some ls =>
          by_cases h : ls.isEmpty <;>
            simp [mem_sortByLe, qMatches, lvlMatches, List.mem_filter, hq, h, and_assoc] <;> tauto
  · exact sortByCreatedDesc_pairwise _

/-- Witness for C8: a case-insensitive title search returns exactly the one
published matching course, and the unfiltered list is ordered by descending
creation time. -/
theorem C8_course_list_witness :
    course_list exDb (some "ITALIAN") none = [italianCourse]
    ∧ italianCourse ∈ course_list exDb (some "ITALIAN") none
    ∧ (course_list exDb none none).Pairwise (fun a b => b.created_at ≤ a.created_at) := by
  refine ⟨by decide, ?_, (C8_course_list exDb none none).2⟩
  exact ((C8_course_list exDb (some "ITALIAN") none).1 italianCourse).mpr (by decide)

end Curliducation
